import Mathlib

/-!
ERC20 deposit command (`chains/evm/cli/erc20/deposit.go`).

A shallow embedding of `validateFlags` and `DepositCmd` together with the library
functions they call (`common.IsHexAddress`, `common.HexToAddress`,
`hex.DecodeString`, `strconv.Atoi`).  The helpers of package `calls`, the flag
reader and the RPC client are collaborators of the command: they are fields of
an environment record, and the command records every call it makes to them.
-/

namespace Erc20Deposit

/-! ## Strings and bytes -/

/-- A Go `string` or `[]byte`: a sequence of bytes, each given by its value. -/
abbrev Bytes := List Nat

/-- The bytes of an ASCII literal. -/
def str (s : String) : Bytes := s.toList.map Char.toNat

/-- The two causes a `strconv.NumError` can carry here. -/
inductive NumErrorKind where
  | ErrSyntax
  | ErrRange
  deriving DecidableEq, Repr

/-- A non-nil Go `error` value. Library errors are kept as the values they are, not
as their rendered text: `hex.InvalidByteError(c)`, `hex.ErrLength`,
`&strconv.NumError{Func, Num, Err}`. `text msg` is an error made from a message
that is known in full (`fmt.Errorf` with string operands, an error of a
collaborator), `Errorf format err` is `fmt.Errorf(format, err)` with the one
error operand `err`, and `InvalidAmount` is the failure the specification
names so. -/
inductive GoError where
  | text (msg : Bytes)
  | InvalidByteError (c : Nat)
  | ErrLength
  | NumError (Func : Bytes) (Num : Bytes) (Err : NumErrorKind)
  | Errorf (format : Bytes) (err : GoError)
  | InvalidAmount
  deriving DecidableEq, Repr

/-- What a Go function with an `error` result hands back: `nil`, a non-nil error,
or no return at all because the goroutine panicked. -/
inductive Ret where
  | nil
  | error (err : GoError)
  | panic
  deriving DecidableEq, Repr

/-- The returned error is non-nil. -/
def Ret.isError : Ret → Bool
  | .error _ => true
  | _ => false

/-! ## go-ethereum `common` -/

/-- The constant `common.AddressLength`. -/
def AddressLength : Nat := 20

/-- The function `has0xPrefix`: `len(str) >= 2 && str[0] == '0' && (str[1] == 'x' || str[1] == 'X')`. -/
def has0xPrefix : Bytes → Bool
  | c0 :: c1 :: _ => c0 == 48 && (c1 == 120 || c1 == 88)
  | _ => false

/-- The function `isHexCharacter`: one of `0-9`, `a-f`, `A-F`. -/
def isHexCharacter (c : Nat) : Bool :=
  (48 ≤ c && c ≤ 57) || (97 ≤ c && c ≤ 102) || (65 ≤ c && c ≤ 70)

/-- The function `isHex`: even length and every byte a hex character. -/
def isHex (s : Bytes) : Bool :=
  if s.length % 2 != 0 then false else s.all isHexCharacter

/-- The function `common.IsHexAddress`. -/
def IsHexAddress (s : Bytes) : Bool :=
  let s := if has0xPrefix s then s.drop 2 else s
  s.length == 2 * AddressLength && isHex s

/-! ## `encoding/hex` -/

/-- The value of a hex digit (`fromHexChar`). -/
def fromHexChar (c : Nat) : Option Nat :=
  if 48 ≤ c ∧ c ≤ 57 then some (c - 48)
  else if 97 ≤ c ∧ c ≤ 102 then some (c - 97 + 10)
  else if 65 ≤ c ∧ c ≤ 70 then some (c - 65 + 10)
  else none

/-- The function `hex.DecodeString`: the bytes decoded before the first problem, and the error
if there is one (an invalid byte is reported before an odd length). -/
def DecodeString : Bytes → Bytes × Option GoError
  | [] => ([], none)
  | [p] =>
    match fromHexChar p with
    | none => ([], some (.InvalidByteError p))
    | some _ => ([], some .ErrLength)
  | p :: q :: rest =>
    match fromHexChar p with
    | none => ([], some (.InvalidByteError p))
    | some a =>
      match fromHexChar q with
      | none => ([], some (.InvalidByteError q))
      | some b => ((a * 16 + b) :: (DecodeString rest).1, (DecodeString rest).2)

/-- The function `common.Hex2Bytes`: `hex.DecodeString` with the error dropped. -/
def Hex2Bytes (s : Bytes) : Bytes := (DecodeString s).1

/-- The function `common.FromHex`. -/
def FromHex (s : Bytes) : Bytes :=
  let s := if has0xPrefix s then s.drop 2 else s
  let s := if s.length % 2 == 1 then 48 :: s else s
  Hex2Bytes s

/-- The function `common.BytesToAddress` (`Address.SetBytes`): keep the last 20 bytes, left-pad with zeros. -/
def BytesToAddress (b : Bytes) : Bytes :=
  let b := if b.length > AddressLength then b.drop (b.length - AddressLength) else b
  List.replicate (AddressLength - b.length) 0 ++ b

/-- The call `common.HexToAddress(s)`, given as the 20 bytes of the address (`Address.Bytes()`). -/
def HexToAddress (s : Bytes) : Bytes := BytesToAddress (FromHex s)

/-! ## `strconv` -/

/-- A decimal digit `0-9`. -/
def isDigit (c : Nat) : Bool := 48 ≤ c && c ≤ 57

/-- The number written by a run of decimal digits, most significant first. -/
def digitsValue (ds : Bytes) : Nat := ds.foldl (fun n c => n * 10 + (c - 48)) 0

/-- The digit loop of `strconv.ParseUint(s, 10, 64)`, `n` being the value read so
far: a byte that is not a decimal digit is `ErrSyntax`, and a value that leaves
64 bits is `ErrRange`, whichever comes first from the left. -/
def parseUintLoop : Bytes → Nat → Except NumErrorKind Nat
  | [], n => .ok n
  | c :: cs, n =>
    if !isDigit c then .error .ErrSyntax
    else if n ≥ (2 ^ 64 - 1) / 10 + 1 then .error .ErrRange
    else if n * 10 + (c - 48) > 2 ^ 64 - 1 then .error .ErrRange
    else parseUintLoop cs (n * 10 + (c - 48))

/-- The function `strconv.Atoi` on a 64-bit platform, as `strconv.ParseInt(s, 10, 0)` computes it
(the fast path of `Atoi` for short strings gives the same results): the empty
string and a bare sign are `ErrSyntax`; after an optional sign the digits are
read by `ParseUint`; the value has to fit an `int`. The `NumError` names
`Atoi` and the whole input. -/
def Atoi (s : Bytes) : Except GoError Int :=
  if s.isEmpty then .error (.NumError (str "Atoi") s .ErrSyntax)
  else
    let neg := s.head? == some 45
    let ds := if s.head? == some 43 || s.head? == some 45 then s.drop 1 else s
    if ds.isEmpty then .error (.NumError (str "Atoi") s .ErrSyntax)
    else
      match parseUintLoop ds 0 with
      | .error kind => .error (.NumError (str "Atoi") s kind)
      | .ok un =>
        if !neg && un ≥ 2 ^ 63 then .error (.NumError (str "Atoi") s .ErrRange)
        else if neg && un > 2 ^ 63 then .error (.NumError (str "Atoi") s .ErrRange)
        else .ok (if neg then -(un : Int) else (un : Int))

/-- The Go conversion `uint8(n)` of an `int`: the low eight bits. -/
def toUint8 (n : Int) : Nat := (n % 256).toNat

/-! ## The package-level flag variables -/

/-- The variables `Recipient`, `Bridge`, `Amount`, `DestinationID`, `ResourceID`, `Decimals`. -/
structure Flags where
  Recipient : Bytes
  Bridge : Bytes
  Amount : Bytes
  DestinationID : Bytes
  ResourceID : Bytes
  Decimals : Int
  deriving DecidableEq, Repr

/-- The function `validateFlags`: `none` is the `nil` error. -/
def validateFlags (f : Flags) : Option GoError :=
  if !IsHexAddress f.Recipient then
    some (.text (str "invalid recipient address " ++ f.Recipient))
  else if !IsHexAddress f.Bridge then
    some (.text (str "invalid bridge address " ++ f.Bridge))
  else none

/-! ## Helpers of package `calls` described by the specification -/

/-- The `InvalidAmount` failure of §4.2 and §7. -/
def InvalidAmount : GoError := .InvalidAmount

/-- The text before the first `.` and, when there is a `.`, the text after it. -/
def splitAtPoint : Bytes → Bytes × Option Bytes
  | [] => ([], none)
  | c :: cs =>
    if c = 46 then ([], some cs)
    else (c :: (splitAtPoint cs).1, (splitAtPoint cs).2)

/-- Modelled from the spec: `calls.UserAmountToWei` is not among the sources. §4.2:
parse the string as a base-10 decimal with an optional fractional part, let `d`
be the number of fractional digits, and return the integer formed by removing
the decimal point times `10^(decimals-d)`; fail with `InvalidAmount` when the
string is not a non-negative decimal or when `d > decimals`. A decimal here is
one or more digits, optionally followed by `.` and one or more digits. -/
def UserAmountToWei (amount : Bytes) (decimals : Int) : Except GoError Nat :=
  let ip := (splitAtPoint amount).1
  let fp? := (splitAtPoint amount).2
  let fp := fp?.getD []
  if ip.isEmpty || !ip.all isDigit || fp? == some [] || !fp.all isDigit then
    .error InvalidAmount
  else if decimals < (fp.length : Int) then .error InvalidAmount
  else .ok (digitsValue (ip ++ fp) * 10 ^ (decimals.toNat - fp.length))

/-- The `w` low-order bytes of `n`, most significant first: for `n < 256^w` the
`w`-byte big-endian encoding of `n`. -/
def bigEndian : Nat → Nat → Bytes
  | 0, _ => []
  | w + 1, n => bigEndian w (n / 256) ++ [n % 256]

/-- The unsigned integer written by big-endian bytes. -/
def beValue (b : Bytes) : Nat := b.foldl (fun n x => n * 256 + x) 0

/-- Modelled from the spec: `calls.ConstructErc20DepositData` is not among the
sources. §4.4: the amount encoded as a 32-byte big-endian unsigned integer,
followed by a 32-byte big-endian length field equal to the recipient address
byte length, followed by the raw recipient address bytes. (An amount of 2^256
or more is the encoder's `EncodingError` in the spec; here only its low 32
bytes are written.) -/
def ConstructErc20DepositData (destRecipient : Bytes) (amount : Nat) : Bytes :=
  bigEndian 32 amount ++ bigEndian 32 destRecipient.length ++ destRecipient

/-- The side on which a short resource id receives its zero bytes (left open by §9). -/
inductive PadSide where
  | left
  | right
  deriving DecidableEq, Repr

/-- Modelled from the spec: `calls.SliceTo32Bytes` is not among the sources. §4.3 has
a decoded id shorter than 32 bytes padded to 32 bytes, on a side that §9 leaves
open, and an output of exactly 32 bytes; the call site takes one result and no
error. So the input is laid over 32 zero bytes, flush with the side that is not
padded, and of a longer input only the 32 bytes on that side fit. -/
def SliceTo32Bytes (side : PadSide) (b : Bytes) : Bytes :=
  match side with
  | .right => (b ++ List.replicate 32 0).take 32
  | .left => (List.replicate 32 0 ++ b).drop b.length

/-! ## The collaborators of `DepositCmd` -/

/-- What `flags.GlobalFlagValues` returns; the key pair is an opaque handle. -/
structure GlobalFlags where
  url : Bytes
  gasLimit : Nat
  gasPrice : Nat
  senderKeyPair : Nat
  deriving DecidableEq, Repr

/-- The functions `DepositCmd` calls that are not in `deposit.go`: the flag reader,
the helpers of package `calls`, the client constructor and the client. A
client is an opaque handle. -/
structure Env where
  GlobalFlagValues : Except GoError GlobalFlags
  UserAmountToWei : Bytes → Int → Except GoError Nat
  NewEVMClientFromParams : Bytes → Nat → Nat → Except GoError Nat
  SliceTo32Bytes : Bytes → Bytes
  ConstructErc20DepositData : Bytes → Nat → Bytes
  PrepareErc20DepositInput : Nat → Bytes → Bytes → Except GoError Bytes
  BlockNumber : Nat → Except GoError Nat
  Transact : Nat → Bytes → Bytes → Nat → Except GoError Bytes

/-- A call made to a collaborator, with the arguments of the two calls that carry
the deposit. -/
inductive Event where
  | GlobalFlagValues
  | UserAmountToWei
  | NewEVMClientFromParams
  | SliceTo32Bytes
  | ConstructErc20DepositData
  | PrepareErc20DepositInput (domainId : Nat) (resourceId : Bytes) (data : Bytes)
  | BlockNumber
  | Transact (toAddr : Bytes) (input : Bytes) (gasLimit : Nat)
  deriving DecidableEq, Repr

/-- The call is `calls.Transact`. -/
def Event.isTransact : Event → Bool
  | .Transact _ _ _ => true
  | _ => false

/-- The call reaches the network: constructing the RPC client, querying the chain
head, or submitting the transaction. -/
def Event.isNetwork : Event → Bool
  | .NewEVMClientFromParams => true
  | .BlockNumber => true
  | .Transact _ _ _ => true
  | _ => false

/-- What one run leaves behind: the flag variables, the calls made in order, and
the returned error. -/
structure Result where
  flags : Flags
  trace : List Event
  ret : Ret
  deriving DecidableEq, Repr

/-- How lines 89-96 of `DepositCmd` end. -/
inductive ResourceIdResult where
  | panic
  | error (ResourceID : Bytes) (err : GoError)
  | ok (ResourceID : Bytes) (resourceIdBytesArr : Bytes)
  deriving DecidableEq, Repr

/-- Lines 89-96 of `DepositCmd`, the resource-id stage: `ResourceID[0:2]` panics on a
string shorter than two bytes; a leading `0x` is removed from the variable
`ResourceID`; the rest is hex-decoded and handed to `calls.SliceTo32Bytes`. -/
def resourceIdStage (slice : Bytes → Bytes) (ResourceID : Bytes) : ResourceIdResult :=
  if ResourceID.length < 2 then .panic
  else
    let ResourceID := if ResourceID.take 2 = str "0x" then ResourceID.drop 2 else ResourceID
    match DecodeString ResourceID with
    | (_, some err) => .error ResourceID err
    | (resourceIdBytes, none) => .ok ResourceID (slice resourceIdBytes)

/-- The function `DepositCmd` (logging left out). -/
def DepositCmd (env : Env) (f : Flags) : Result :=
  let recipientAddress := HexToAddress f.Recipient
  match env.GlobalFlagValues with
  | .error err =>
    ⟨f, [.GlobalFlagValues], .error (.Errorf (str "could not get global flags: %v") err)⟩
  | .ok g =>
  let decimals := f.Decimals
  let bridgeAddr := HexToAddress f.Bridge
  match env.UserAmountToWei f.Amount decimals with
  | .error err => ⟨f, [.GlobalFlagValues, .UserAmountToWei], .error err⟩
  | .ok realAmount =>
  match env.NewEVMClientFromParams g.url g.senderKeyPair g.gasPrice with
  | .error err =>
    ⟨f, [.GlobalFlagValues, .UserAmountToWei, .NewEVMClientFromParams], .error err⟩
  | .ok ethClient =>
  match resourceIdStage env.SliceTo32Bytes f.ResourceID with
  | .panic =>
    ⟨f, [.GlobalFlagValues, .UserAmountToWei, .NewEVMClientFromParams], .panic⟩
  | .error rid err =>
    ⟨{ f with ResourceID := rid },
      [.GlobalFlagValues, .UserAmountToWei, .NewEVMClientFromParams], .error err⟩
  | .ok rid resourceIdBytesArr =>
  let f := { f with ResourceID := rid }
  match Atoi f.DestinationID with
  | .error err =>
    ⟨f, [.GlobalFlagValues, .UserAmountToWei, .NewEVMClientFromParams, .SliceTo32Bytes],
      .error err⟩
  | .ok destinationIdInt =>
  let data := env.ConstructErc20DepositData recipientAddress realAmount
  match env.PrepareErc20DepositInput (toUint8 destinationIdInt) resourceIdBytesArr data with
  | .error err =>
    ⟨f, [.GlobalFlagValues, .UserAmountToWei, .NewEVMClientFromParams, .SliceTo32Bytes,
        .ConstructErc20DepositData,
        .PrepareErc20DepositInput (toUint8 destinationIdInt) resourceIdBytesArr data],
      .error err⟩
  | .ok input =>
  match env.BlockNumber ethClient with
  | .error err =>
    ⟨f, [.GlobalFlagValues, .UserAmountToWei, .NewEVMClientFromParams, .SliceTo32Bytes,
        .ConstructErc20DepositData,
        .PrepareErc20DepositInput (toUint8 destinationIdInt) resourceIdBytesArr data,
        .BlockNumber],
      .error err⟩
  | .ok _ =>
  match env.Transact ethClient bridgeAddr input g.gasLimit with
  | .error err =>
    ⟨f, [.GlobalFlagValues, .UserAmountToWei, .NewEVMClientFromParams, .SliceTo32Bytes,
        .ConstructErc20DepositData,
        .PrepareErc20DepositInput (toUint8 destinationIdInt) resourceIdBytesArr data,
        .BlockNumber, .Transact bridgeAddr input g.gasLimit],
      .error err⟩
  | .ok _ =>
    ⟨f, [.GlobalFlagValues, .UserAmountToWei, .NewEVMClientFromParams, .SliceTo32Bytes,
        .ConstructErc20DepositData,
        .PrepareErc20DepositInput (toUint8 destinationIdInt) resourceIdBytesArr data,
        .BlockNumber, .Transact bridgeAddr input g.gasLimit],
      .nil⟩

/-- The `deposit` command: cobra runs the `Args` hook (`validateFlags`) and, only
when it returns `nil`, `RunE` (`DepositCmd`). -/
def depositCmd (env : Env) (f : Flags) : Result :=
  match validateFlags f with
  | some err => ⟨f, [], .error err⟩
  | none => DepositCmd env f

/-! ## A worked environment -/

/-- An environment in which every collaborator succeeds: the helpers of package
`calls` as the specification describes them (padding on the right), and
stand-ins for the flag reader, the encoder of the outer call and the client. -/
def demoEnv : Env where
  GlobalFlagValues := .ok ⟨str "http://localhost:8545", 6721975, 20000000000, 1⟩
  UserAmountToWei := UserAmountToWei
  NewEVMClientFromParams := fun _ _ _ => .ok 1
  SliceTo32Bytes := SliceTo32Bytes .right
  ConstructErc20DepositData := ConstructErc20DepositData
  PrepareErc20DepositInput := fun d rid data => .ok (d :: rid ++ data)
  BlockNumber := fun _ => .ok 100
  Transact := fun _ _ _ _ => .ok (List.replicate 32 171)

/-- A well-formed deposit request: 1.5 tokens of 18 decimals to domain 1. -/
def demoFlags : Flags where
  Recipient := str "0x00000000000000000000000000000000000000aa"
  Bridge := str "0x00000000000000000000000000000000000000bb"
  Amount := str "1.5"
  DestinationID := str "1"
  ResourceID := str "0x01"
  Decimals := 18

/-! ## Vocabulary of the statements -/

deriving instance DecidableEq for Except

/-- The domain id a call to `PrepareErc20DepositInput` was given. -/
def Event.domainId? : Event → Option Nat
  | .PrepareErc20DepositInput d _ _ => some d
  | _ => none

/-- The resource id a call to `PrepareErc20DepositInput` was given. -/
def Event.resourceId? : Event → Option Bytes
  | .PrepareErc20DepositInput _ rid _ => some rid
  | _ => none

/-- A resource id of 33 bytes: `0x` followed by 33 times `01`. -/
def longResourceId : Bytes := str "0x" ++ (List.replicate 33 (str "01")).flatten


/-- The spec's words (§4.1) for a hex digit "of either case". -/
def IsHexDigit (c : Nat) : Prop := c ∈ str "0123456789abcdefABCDEF"

/-- The spec's words (§4.1) for a syntactically valid hex-encoded 20-byte address:
an optional `0x` prefix (in either case, the section says "case-insensitive")
followed by exactly 40 hex digits. -/
def ValidHexAddress (s : Bytes) : Prop :=
  ∃ pre digits, s = pre ++ digits ∧ (pre = [] ∨ pre = str "0x" ∨ pre = str "0X") ∧
    digits.length = 40 ∧ ∀ c ∈ digits, IsHexDigit c

/-- The spec's words (§4.2, §8): `s` is a non-negative decimal string whose integer
digits are `ip` and whose fractional digits are `fp` (none when `s` has no
decimal point). -/
def IsDecimal (s ip fp : Bytes) : Prop :=
  ip ≠ [] ∧ (∀ c ∈ ip, isDigit c = true) ∧ (∀ c ∈ fp, isDigit c = true) ∧
    ((fp = [] ∧ s = ip) ∨ (fp ≠ [] ∧ s = ip ++ 46 :: fp))

/-- The spec's words (§3, §6) for a well-formed destination domain id on the command
line: a decimal integer, that is an optional sign followed by one or more
decimal digits. -/
def IsDecimalInteger (s : Bytes) : Prop :=
  ∃ sign ds, s = sign ++ ds ∧ (sign = [] ∨ sign = str "-" ∨ sign = str "+") ∧
    ds ≠ [] ∧ ∀ c ∈ ds, isDigit c = true

/-- The string with its decimal point removed. -/
def removePoint (s : Bytes) : Bytes := s.filter (fun c => c != 46)

/-- The value of the variable `ResourceID` after line 91. -/
def strip0x (ResourceID : Bytes) : Bytes :=
  if ResourceID.take 2 = str "0x" then ResourceID.drop 2 else ResourceID

/-! ## `validateFlags` -/

theorem str_0x : str "0x" = [48, 120] := by decide

theorem str_0X : str "0X" = [48, 88] := by decide

theorem isHexCharacter_iff (c : Nat) : isHexCharacter c = true ↔ IsHexDigit c := by
  have hs : str "0123456789abcdefABCDEF" =
      [48, 49, 50, 51, 52, 53, 54, 55, 56, 57, 97, 98, 99, 100, 101, 102,
        65, 66, 67, 68, 69, 70] := by decide
  unfold IsHexDigit isHexCharacter
  rw [hs]
  simp only [List.mem_cons, List.mem_singleton, List.not_mem_nil, or_false, Bool.or_eq_true,
    Bool.and_eq_true, decide_eq_true_eq]
  omega

theorem isHex_of_length_40 (s : Bytes) (h : s.length = 40) :
    isHex s = true ↔ ∀ c ∈ s, IsHexDigit c := by
  unfold isHex
  simp [h, List.all_eq_true, isHexCharacter_iff]

theorem IsHexAddress_iff (s : Bytes) : IsHexAddress s = true ↔ ValidHexAddress s := by
  constructor
  · intro h
    unfold IsHexAddress at h
    by_cases hp : has0xPrefix s = true
    · rw [if_pos hp] at h
      match s, hp with
      | c0 :: c1 :: t, hp =>
        simp only [has0xPrefix, Bool.and_eq_true, Bool.or_eq_true, beq_iff_eq] at hp
        simp only [List.drop_succ_cons, List.drop_zero, AddressLength, Bool.and_eq_true,
          beq_iff_eq] at h
        refine ⟨[c0, c1], t, rfl, ?_, h.1, (isHex_of_length_40 t h.1).1 h.2⟩
        rcases hp with ⟨h0, h1 | h1⟩
        · right; left; rw [str_0x, h0, h1]
        · right; right; rw [str_0X, h0, h1]
    · rw [if_neg hp] at h
      simp only [AddressLength, Bool.and_eq_true, beq_iff_eq] at h
      exact ⟨[], s, rfl, Or.inl rfl, h.1, (isHex_of_length_40 s h.1).1 h.2⟩
  · rintro ⟨pre, digits, rfl, hpre, hlen, hdig⟩
    unfold IsHexAddress
    rcases hpre with rfl | rfl | rfl
    · have hp : has0xPrefix ([] ++ digits) = false := by
        match digits, hdig with
        | [], _ => rfl
        | [_], _ => rfl
        | c0 :: c1 :: t, hdig =>
          have h1 := (isHexCharacter_iff c1).2 (hdig c1 (by simp))
          simp only [isHexCharacter, Bool.or_eq_true, Bool.and_eq_true, decide_eq_true_eq] at h1
          simp only [List.nil_append, has0xPrefix, Bool.and_eq_false_iff, Bool.or_eq_false_iff,
            beq_eq_false_iff_ne, ne_eq]
          right
          omega
      rw [hp]
      simp only [Bool.false_eq_true, if_false, List.nil_append, AddressLength, Bool.and_eq_true,
        beq_iff_eq]
      exact ⟨hlen, (isHex_of_length_40 digits hlen).2 hdig⟩
    · rw [str_0x]
      simp only [List.cons_append, List.nil_append, has0xPrefix, beq_self_eq_true,
        Bool.true_or, Bool.and_self, if_true, List.drop_succ_cons, List.drop_zero, AddressLength,
        Bool.and_eq_true, beq_iff_eq]
      exact ⟨hlen, (isHex_of_length_40 digits hlen).2 hdig⟩
    · rw [str_0X]
      simp only [List.cons_append, List.nil_append, has0xPrefix, beq_self_eq_true,
        Bool.or_true, Bool.and_self, if_true, List.drop_succ_cons, List.drop_zero, AddressLength,
        Bool.and_eq_true, beq_iff_eq]
      exact ⟨hlen, (isHex_of_length_40 digits hlen).2 hdig⟩

/-- C7: `validateFlags` returns `nil` exactly when `Recipient` and `Bridge` are both
valid hex addresses (40 hex digits of either case after an optional `0x` prefix,
its `x` in either case); otherwise the error names the offending field:
`invalid recipient address ...` whenever `Recipient` is invalid, and
`invalid bridge address ...` when `Recipient` is valid and `Bridge` is not. -/
theorem validateFlags_nil_iff_both_valid (f : Flags) :
    (validateFlags f = none ↔ ValidHexAddress f.Recipient ∧ ValidHexAddress f.Bridge) ∧
    (¬ ValidHexAddress f.Recipient →
      validateFlags f = some (.text (str "invalid recipient address " ++ f.Recipient))) ∧
    (ValidHexAddress f.Recipient → ¬ ValidHexAddress f.Bridge →
      validateFlags f = some (.text (str "invalid bridge address " ++ f.Bridge))) := by
  simp only [← IsHexAddress_iff]
  unfold validateFlags
  cases IsHexAddress f.Recipient <;> cases IsHexAddress f.Bridge <;> simp

/-- Scenario D: the recipient `notanaddress` is refused by name, the bridge address
not being looked at. -/
theorem validateFlags_nil_iff_both_valid_witness :
    ¬ ValidHexAddress (str "notanaddress") ∧
    validateFlags { demoFlags with Recipient := str "notanaddress" } =
      some (.text (str "invalid recipient address notanaddress")) :=
  ⟨fun h => absurd ((IsHexAddress_iff _).2 h) (by decide),
    (validateFlags_nil_iff_both_valid { demoFlags with Recipient := str "notanaddress" }).2.1
      (fun h => absurd ((IsHexAddress_iff _).2 h) (by decide))⟩

/-! ## The amount stage -/

theorem isDigit_ne_point {c : Nat} (h : isDigit c = true) : c ≠ 46 := by
  simp only [isDigit, Bool.and_eq_true, decide_eq_true_eq] at h
  omega

theorem splitAtPoint_digits (ip : Bytes) (h : ∀ c ∈ ip, isDigit c = true) :
    splitAtPoint ip = (ip, none) := by
  induction ip with
  | nil => rfl
  | cons c cs ih =>
    have hc := isDigit_ne_point (h c (by simp))
    have hcs := ih (fun x hx => h x (by simp [hx]))
    simp [splitAtPoint, hc, hcs]

theorem splitAtPoint_append (ip fp : Bytes) (h : ∀ c ∈ ip, isDigit c = true) :
    splitAtPoint (ip ++ 46 :: fp) = (ip, some fp) := by
  induction ip with
  | nil => simp [splitAtPoint]
  | cons c cs ih =>
    have hc := isDigit_ne_point (h c (by simp))
    have hcs := ih (fun x hx => h x (by simp [hx]))
    simp [splitAtPoint, hc, hcs]

theorem removePoint_digits (ds : Bytes) (h : ∀ c ∈ ds, isDigit c = true) :
    removePoint ds = ds := by
  unfold removePoint
  rw [List.filter_eq_self]
  intro c hc
  simpa using isDigit_ne_point (h c hc)

theorem removePoint_append (ip fp : Bytes) (hip : ∀ c ∈ ip, isDigit c = true)
    (hfp : ∀ c ∈ fp, isDigit c = true) : removePoint (ip ++ 46 :: fp) = ip ++ fp := by
  have h1 := removePoint_digits ip hip
  have h2 := removePoint_digits fp hfp
  unfold removePoint at *
  simp [List.filter_append, List.filter_cons, h1, h2]

/-- C2: for a non-negative decimal string `s` with `d` fractional digits and
non-negative `decimals`, the amount stage `UserAmountToWei(Amount, Decimals)`
yields exactly the integer written by `s` without its decimal point times
`10^(decimals-d)` when `d ≤ decimals`, and fails when `d > decimals`. -/
theorem UserAmountToWei_exact (s ip fp : Bytes) (decimals : Int)
    (hs : IsDecimal s ip fp) (hdec : 0 ≤ decimals) :
    ((fp.length : Int) ≤ decimals →
      UserAmountToWei s decimals =
        .ok (digitsValue (removePoint s) * 10 ^ (decimals.toNat - fp.length))) ∧
    (decimals < (fp.length : Int) → UserAmountToWei s decimals = .error InvalidAmount) := by
  obtain ⟨hne, hip, hfp, hform⟩ := hs
  have hipall : ip.all isDigit = true := List.all_eq_true.2 hip
  have hfpall : fp.all isDigit = true := List.all_eq_true.2 hfp
  have hemp : ip.isEmpty = false := by
    cases ip with
    | nil => exact absurd rfl hne
    | cons _ _ => rfl
  rcases hform with ⟨hfp0, rfl⟩ | ⟨hfpne, rfl⟩
  · subst hfp0
    have hsp := splitAtPoint_digits s hip
    have hrm := removePoint_digits s hip
    constructor
    · intro _
      simp [UserAmountToWei, hsp, hemp, hipall, hrm, not_lt.2 hdec]
    · intro hlt
      simp only [List.length_nil, Nat.cast_zero] at hlt
      omega
  · have hsp := splitAtPoint_append ip fp hip
    have hrm := removePoint_append ip fp hip hfp
    constructor
    · intro hle
      simp [UserAmountToWei, hsp, hemp, hipall, hfpall, hfpne, hrm, not_lt.2 hle]
    · intro hlt
      simp [UserAmountToWei, hsp, hemp, hipall, hfpall, hfpne, hlt]

/-- Scenario A: amount `1.5` with 18 decimals is `1500000000000000000`. -/
theorem UserAmountToWei_exact_witness :
    IsDecimal (str "1.5") (str "1") (str "5") ∧
    UserAmountToWei (str "1.5") 18 = .ok 1500000000000000000 :=
  have h : IsDecimal (str "1.5") (str "1") (str "5") :=
    ⟨by decide, by decide, by decide, Or.inr ⟨by decide, by decide⟩⟩
  ⟨h, (UserAmountToWei_exact (str "1.5") (str "1") (str "5") 18 h (by decide)).1 (by decide)⟩

/-! ## Hex decoding -/

theorem fromHexChar_eq_none_iff (c : Nat) : fromHexChar c = none ↔ isHexCharacter c = false := by
  unfold fromHexChar isHexCharacter
  by_cases h1 : 48 ≤ c ∧ c ≤ 57
  · simp [h1]
  · by_cases h2 : 97 ≤ c ∧ c ≤ 102
    · simp [h1, h2]
    · by_cases h3 : 65 ≤ c ∧ c ≤ 70
      · simp [h1, h2, h3]
      · simp only [h1, h2, h3, if_false, true_iff]
        simp only [not_and, not_le] at h1 h2 h3
        simp only [Bool.or_eq_false_iff, Bool.and_eq_false_iff, decide_eq_false_iff_not, not_le]
        omega

theorem fromHexChar_lt (c v : Nat) (h : fromHexChar c = some v) : v < 16 := by
  unfold fromHexChar at h
  split at h
  · simp only [Option.some.injEq] at h; omega
  · split at h
    · simp only [Option.some.injEq] at h; omega
    · split at h
      · simp only [Option.some.injEq] at h; omega
      · exact absurd h (by simp)

/-- The decoder `hex.DecodeString` returns no error exactly on an even number of hex characters. -/
theorem DecodeString_ok_iff (t : Bytes) :
    (DecodeString t).2 = none ↔ t.length % 2 = 0 ∧ ∀ c ∈ t, isHexCharacter c = true := by
  induction t using DecodeString.induct with
  | case1 => simp [DecodeString]
  | case2 p hp =>
    simp [DecodeString, hp]
  | case3 p x hp =>
    simp [DecodeString, hp]
  | case4 p q rest hp =>
    have := (fromHexChar_eq_none_iff p).1 hp
    simp [DecodeString, hp, this]
  | case5 p q rest a ha hq =>
    have := (fromHexChar_eq_none_iff q).1 hq
    simp [DecodeString, ha, hq, this]
  | case6 p q rest a ha b hb ih =>
    have h1 : isHexCharacter p = true := by
      by_contra h
      have := (fromHexChar_eq_none_iff p).2 (by simpa using h)
      rw [ha] at this
      exact absurd this (by simp)
    have h2 : isHexCharacter q = true := by
      by_contra h
      have := (fromHexChar_eq_none_iff q).2 (by simpa using h)
      rw [hb] at this
      exact absurd this (by simp)
    simp only [DecodeString, ha, hb, ih, List.length_cons, List.mem_cons, forall_eq_or_imp, h1, h2,
      true_and]
    constructor
    · rintro ⟨h, h'⟩
      exact ⟨by omega, h'⟩
    · rintro ⟨h, h'⟩
      exact ⟨by omega, h'⟩

theorem DecodeString_length_le (t : Bytes) : (DecodeString t).1.length * 2 ≤ t.length := by
  induction t using DecodeString.induct with
  | case1 => simp [DecodeString]
  | case2 p hp => simp [DecodeString, hp]
  | case3 p x hp => simp [DecodeString, hp]
  | case4 p q rest hp => simp [DecodeString, hp]
  | case5 p q rest a ha hq => simp [DecodeString, ha, hq]
  | case6 p q rest a ha b hb ih =>
    simp only [DecodeString, ha, hb, List.length_cons]
    omega

theorem DecodeString_length (t : Bytes) (h : (DecodeString t).2 = none) :
    (DecodeString t).1.length * 2 = t.length := by
  induction t using DecodeString.induct with
  | case1 => simp [DecodeString]
  | case2 p hp => simp [DecodeString, hp] at h
  | case3 p x hp => simp [DecodeString, hp] at h
  | case4 p q rest hp => simp [DecodeString, hp] at h
  | case5 p q rest a ha hq => simp [DecodeString, ha, hq] at h
  | case6 p q rest a ha b hb ih =>
    simp only [DecodeString, ha, hb] at h
    simp only [DecodeString, ha, hb, List.length_cons]
    have := ih h
    omega

theorem DecodeString_lt (t : Bytes) : ∀ x ∈ (DecodeString t).1, x < 256 := by
  induction t using DecodeString.induct with
  | case1 => simp [DecodeString]
  | case2 p hp => simp [DecodeString, hp]
  | case3 p x hp => simp [DecodeString, hp]
  | case4 p q rest hp => simp [DecodeString, hp]
  | case5 p q rest a ha hq => simp [DecodeString, ha, hq]
  | case6 p q rest a ha b hb ih =>
    simp only [DecodeString, ha, hb, List.mem_cons, forall_eq_or_imp]
    have := fromHexChar_lt p a ha
    have := fromHexChar_lt q b hb
    exact ⟨by omega, ih⟩

theorem resourceIdStage_eq (slice : Bytes → Bytes) (r : Bytes) (h2 : 2 ≤ r.length) :
    resourceIdStage slice r =
      match DecodeString (strip0x r) with
      | (_, some err) => .error (strip0x r) err
      | (b, none) => .ok (strip0x r) (slice b) := by
  unfold resourceIdStage strip0x
  rw [if_neg (by omega)]

theorem resourceIdStage_panic (slice : Bytes → Bytes) (r : Bytes) (h2 : r.length < 2) :
    resourceIdStage slice r = .panic := by
  unfold resourceIdStage
  rw [if_pos h2]

/-! ## The inner data segment -/

theorem bigEndian_length (w n : Nat) : (bigEndian w n).length = w := by
  induction w generalizing n with
  | zero => rfl
  | succ w ih => simp [bigEndian, ih]

theorem bigEndian_lt (w n : Nat) : ∀ x ∈ bigEndian w n, x < 256 := by
  induction w generalizing n with
  | zero => simp [bigEndian]
  | succ w ih =>
    intro x hx
    simp only [bigEndian, List.mem_append, List.mem_singleton] at hx
    rcases hx with hx | rfl
    · exact ih _ x hx
    · exact Nat.mod_lt _ (by decide)

theorem beValue_append_singleton (b : Bytes) (x : Nat) :
    beValue (b ++ [x]) = beValue b * 256 + x := by
  simp [beValue, List.foldl_append]

theorem beValue_bigEndian (w n : Nat) : beValue (bigEndian w n) = n % 256 ^ w := by
  induction w generalizing n with
  | zero => simp [bigEndian, beValue, Nat.mod_one]
  | succ w ih =>
    rw [bigEndian, beValue_append_singleton, ih, pow_succ', Nat.mod_mul]
    ring

theorem BytesToAddress_length (b : Bytes) : (BytesToAddress b).length = 20 := by
  unfold BytesToAddress AddressLength
  by_cases h : b.length > 20
  · simp only [h, if_true, List.length_append, List.length_replicate, List.length_drop]
    omega
  · simp only [h, if_false, List.length_append, List.length_replicate]
    omega

theorem HexToAddress_length (s : Bytes) : (HexToAddress s).length = 20 :=
  BytesToAddress_length _

/-- C6: for every `Recipient` string and every amount `a < 2^256`, the inner data
segment `ConstructErc20DepositData(recipientAddress.Bytes(), realAmount)` is
exactly 84 bytes: bytes 0..31 are 32 bytes that write `a` big-endian, bytes
32..63 are 32 bytes that write 20 big-endian, and bytes 64..83 are the 20
bytes of the recipient address. -/
theorem depositData_layout (Recipient : Bytes) (a : Nat) (ha : a < 2 ^ 256) :
    (ConstructErc20DepositData (HexToAddress Recipient) a).length = 84 ∧
    ((ConstructErc20DepositData (HexToAddress Recipient) a).take 32).length = 32 ∧
    (∀ x ∈ (ConstructErc20DepositData (HexToAddress Recipient) a).take 32, x < 256) ∧
    beValue ((ConstructErc20DepositData (HexToAddress Recipient) a).take 32) = a ∧
    (((ConstructErc20DepositData (HexToAddress Recipient) a).drop 32).take 32).length = 32 ∧
    (∀ x ∈ ((ConstructErc20DepositData (HexToAddress Recipient) a).drop 32).take 32, x < 256) ∧
    beValue (((ConstructErc20DepositData (HexToAddress Recipient) a).drop 32).take 32) = 20 ∧
    (ConstructErc20DepositData (HexToAddress Recipient) a).drop 64 = HexToAddress Recipient ∧
    (HexToAddress Recipient).length = 20 := by
  have hr := HexToAddress_length Recipient
  have h1 : (ConstructErc20DepositData (HexToAddress Recipient) a).take 32 = bigEndian 32 a := by
    unfold ConstructErc20DepositData
    rw [List.append_assoc, List.take_left' (bigEndian_length 32 a)]
  have h2 : ((ConstructErc20DepositData (HexToAddress Recipient) a).drop 32).take 32 =
      bigEndian 32 20 := by
    unfold ConstructErc20DepositData
    rw [List.append_assoc, List.drop_left' (bigEndian_length 32 a), hr,
      List.take_left' (bigEndian_length 32 20)]
  have h3 : (ConstructErc20DepositData (HexToAddress Recipient) a).drop 64 =
      HexToAddress Recipient := by
    unfold ConstructErc20DepositData
    rw [List.drop_left']
    simp [bigEndian_length]
  have ha' : a % 256 ^ 32 = a := Nat.mod_eq_of_lt (by
    have : (256 : Nat) ^ 32 = 2 ^ 256 := by norm_num
    omega)
  refine ⟨?_, ?_, ?_, ?_, ?_, ?_, ?_, h3, hr⟩
  · simp [ConstructErc20DepositData, bigEndian_length, hr]
  · rw [h1, bigEndian_length]
  · rw [h1]; exact bigEndian_lt 32 a
  · rw [h1, beValue_bigEndian, ha']
  · rw [h2, bigEndian_length]
  · rw [h2]; exact bigEndian_lt 32 20
  · rw [h2, beValue_bigEndian]; norm_num

/-- The segment for 1.5 tokens of 18 decimals sent to the address `0x..aa`. -/
theorem depositData_layout_witness :
    (1500000000000000000 : Nat) < 2 ^ 256 ∧
    (ConstructErc20DepositData (HexToAddress demoFlags.Recipient) 1500000000000000000).length
      = 84 ∧
    beValue ((ConstructErc20DepositData (HexToAddress demoFlags.Recipient)
      1500000000000000000).take 32) = 1500000000000000000 :=
  ⟨by norm_num,
    (depositData_layout demoFlags.Recipient 1500000000000000000 (by norm_num)).1,
    (depositData_layout demoFlags.Recipient 1500000000000000000 (by norm_num)).2.2.2.1⟩

/-! ## The order of the stages -/

/-- How a run of `DepositCmd` can end, stage by stage. -/
theorem DepositCmd_cases (env : Env) (f : Flags) :
    (∃ err, env.GlobalFlagValues = .error err ∧
      DepositCmd env f = ⟨f, [.GlobalFlagValues], .error (.Errorf (str "could not get global flags: %v") err)⟩) ∨
    ∃ g, env.GlobalFlagValues = .ok g ∧
    ((∃ err, env.UserAmountToWei f.Amount f.Decimals = .error err ∧
      DepositCmd env f = ⟨f, [.GlobalFlagValues, .UserAmountToWei], .error err⟩) ∨
    ∃ realAmount, env.UserAmountToWei f.Amount f.Decimals = .ok realAmount ∧
    ((∃ err, env.NewEVMClientFromParams g.url g.senderKeyPair g.gasPrice = .error err ∧
      DepositCmd env f =
        ⟨f, [.GlobalFlagValues, .UserAmountToWei, .NewEVMClientFromParams], .error err⟩) ∨
    ∃ ethClient, env.NewEVMClientFromParams g.url g.senderKeyPair g.gasPrice = .ok ethClient ∧
    ((resourceIdStage env.SliceTo32Bytes f.ResourceID = .panic ∧
      DepositCmd env f =
        ⟨f, [.GlobalFlagValues, .UserAmountToWei, .NewEVMClientFromParams], .panic⟩) ∨
    (∃ rid err, resourceIdStage env.SliceTo32Bytes f.ResourceID = .error rid err ∧
      DepositCmd env f = ⟨{ f with ResourceID := rid },
        [.GlobalFlagValues, .UserAmountToWei, .NewEVMClientFromParams], .error err⟩) ∨
    ∃ rid arr, resourceIdStage env.SliceTo32Bytes f.ResourceID = .ok rid arr ∧
    ((∃ err, Atoi f.DestinationID = .error err ∧
      DepositCmd env f = ⟨{ f with ResourceID := rid },
        [.GlobalFlagValues, .UserAmountToWei, .NewEVMClientFromParams, .SliceTo32Bytes],
        .error err⟩) ∨
    ∃ dest, Atoi f.DestinationID = .ok dest ∧
    ((∃ err, env.PrepareErc20DepositInput (toUint8 dest) arr
        (env.ConstructErc20DepositData (HexToAddress f.Recipient) realAmount) = .error err ∧
      DepositCmd env f = ⟨{ f with ResourceID := rid },
        [.GlobalFlagValues, .UserAmountToWei, .NewEVMClientFromParams, .SliceTo32Bytes,
          .ConstructErc20DepositData,
          .PrepareErc20DepositInput (toUint8 dest) arr
            (env.ConstructErc20DepositData (HexToAddress f.Recipient) realAmount)],
        .error err⟩) ∨
    ∃ input, env.PrepareErc20DepositInput (toUint8 dest) arr
        (env.ConstructErc20DepositData (HexToAddress f.Recipient) realAmount) = .ok input ∧
    ((∃ err, env.BlockNumber ethClient = .error err ∧
      DepositCmd env f = ⟨{ f with ResourceID := rid },
        [.GlobalFlagValues, .UserAmountToWei, .NewEVMClientFromParams, .SliceTo32Bytes,
          .ConstructErc20DepositData,
          .PrepareErc20DepositInput (toUint8 dest) arr
            (env.ConstructErc20DepositData (HexToAddress f.Recipient) realAmount),
          .BlockNumber],
        .error err⟩) ∨
    ∃ blockNum, env.BlockNumber ethClient = .ok blockNum ∧
    ((∃ err, env.Transact ethClient (HexToAddress f.Bridge) input g.gasLimit = .error err ∧
      DepositCmd env f = ⟨{ f with ResourceID := rid },
        [.GlobalFlagValues, .UserAmountToWei, .NewEVMClientFromParams, .SliceTo32Bytes,
          .ConstructErc20DepositData,
          .PrepareErc20DepositInput (toUint8 dest) arr
            (env.ConstructErc20DepositData (HexToAddress f.Recipient) realAmount),
          .BlockNumber, .Transact (HexToAddress f.Bridge) input g.gasLimit],
        .error err⟩) ∨
    ∃ txHash, env.Transact ethClient (HexToAddress f.Bridge) input g.gasLimit = .ok txHash ∧
      DepositCmd env f = ⟨{ f with ResourceID := rid },
        [.GlobalFlagValues, .UserAmountToWei, .NewEVMClientFromParams, .SliceTo32Bytes,
          .ConstructErc20DepositData,
          .PrepareErc20DepositInput (toUint8 dest) arr
            (env.ConstructErc20DepositData (HexToAddress f.Recipient) realAmount),
          .BlockNumber, .Transact (HexToAddress f.Bridge) input g.gasLimit],
        .nil⟩))))))) := by
  unfold DepositCmd
  dsimp only
  cases h1 : env.GlobalFlagValues with
  | error err => exact Or.inl ⟨err, rfl, rfl⟩
  | ok g =>
  dsimp only
  refine Or.inr ⟨g, rfl, ?_⟩
  cases h2 : env.UserAmountToWei f.Amount f.Decimals with
  | error err => exact Or.inl ⟨err, rfl, rfl⟩
  | ok realAmount =>
  dsimp only
  refine Or.inr ⟨realAmount, rfl, ?_⟩
  cases h3 : env.NewEVMClientFromParams g.url g.senderKeyPair g.gasPrice with
  | error err => exact Or.inl ⟨err, rfl, rfl⟩
  | ok ethClient =>
  dsimp only
  refine Or.inr ⟨ethClient, rfl, ?_⟩
  cases h4 : resourceIdStage env.SliceTo32Bytes f.ResourceID with
  | panic => exact Or.inl ⟨rfl, rfl⟩
  | error rid err => exact Or.inr (Or.inl ⟨rid, err, rfl, rfl⟩)
  | ok rid arr =>
  dsimp only
  refine Or.inr (Or.inr ⟨rid, arr, rfl, ?_⟩)
  cases h5 : Atoi f.DestinationID with
  | error err => exact Or.inl ⟨err, rfl, rfl⟩
  | ok dest =>
  dsimp only
  refine Or.inr ⟨dest, rfl, ?_⟩
  cases h6 : env.PrepareErc20DepositInput (toUint8 dest) arr
      (env.ConstructErc20DepositData (HexToAddress f.Recipient) realAmount) with
  | error err => exact Or.inl ⟨err, rfl, rfl⟩
  | ok input =>
  dsimp only
  refine Or.inr ⟨input, rfl, ?_⟩
  cases h7 : env.BlockNumber ethClient with
  | error err => exact Or.inl ⟨err, rfl, rfl⟩
  | ok blockNum =>
  dsimp only
  refine Or.inr ⟨blockNum, rfl, ?_⟩
  cases h8 : env.Transact ethClient (HexToAddress f.Bridge) input g.gasLimit with
  | error err => exact Or.inl ⟨err, rfl, rfl⟩
  | ok txHash => exact Or.inr ⟨txHash, rfl, rfl⟩

/-- C8, the code at the failing inputs: with valid addresses and a resource id of
fewer than two characters (`a`, or the empty string, the default of the flag)
the global flags, the amount conversion and the client construction succeed,
and the resource-id stage then fails by the panic of `ResourceID[0:2]`: the
command returns no error, neither that stage's nor any other. -/
theorem depositCmd_panics_without_error :
    validateFlags { demoFlags with ResourceID := str "a" } = none ∧
    depositCmd demoEnv { demoFlags with ResourceID := str "a" } =
      ⟨{ demoFlags with ResourceID := str "a" },
        [.GlobalFlagValues, .UserAmountToWei, .NewEVMClientFromParams], .panic⟩ ∧
    (depositCmd demoEnv { demoFlags with ResourceID := str "a" }).ret.isError = false ∧
    validateFlags { demoFlags with ResourceID := [] } = none ∧
    depositCmd demoEnv { demoFlags with ResourceID := [] } =
      ⟨{ demoFlags with ResourceID := [] },
        [.GlobalFlagValues, .UserAmountToWei, .NewEVMClientFromParams], .panic⟩ ∧
    (depositCmd demoEnv { demoFlags with ResourceID := [] }).ret.isError = false := by
  decide

/-- Apart from that panic the command is fail-fast on every path: `calls.Transact` is
invoked at most once, and only after `validateFlags`, the global flags, the
amount conversion, the client construction, the resource-id stage, the
destination-id parsing, `PrepareErc20DepositInput` and `BlockNumber` have all
succeeded, the calls made being exactly those stages in that order. When a
stage returns an error, the command returns that error (for the global flags,
wrapped by `fmt.Errorf`) with only the earlier stages in the trace. When the
resource-id stage panics, the run ends there and nothing is submitted. -/
theorem depositCmd_fail_fast (env : Env) (f : Flags) :
    (depositCmd env f).trace.countP Event.isTransact ≤ 1 ∧
    (∀ e ∈ (depositCmd env f).trace, e.isTransact = true →
      validateFlags f = none ∧
      ∃ g realAmount ethClient rid arr dest input blockNum,
        env.GlobalFlagValues = .ok g ∧
        env.UserAmountToWei f.Amount f.Decimals = .ok realAmount ∧
        env.NewEVMClientFromParams g.url g.senderKeyPair g.gasPrice = .ok ethClient ∧
        resourceIdStage env.SliceTo32Bytes f.ResourceID = .ok rid arr ∧
        Atoi f.DestinationID = .ok dest ∧
        env.PrepareErc20DepositInput (toUint8 dest) arr
          (env.ConstructErc20DepositData (HexToAddress f.Recipient) realAmount) = .ok input ∧
        env.BlockNumber ethClient = .ok blockNum ∧
        e = .Transact (HexToAddress f.Bridge) input g.gasLimit ∧
        (depositCmd env f).trace =
          [.GlobalFlagValues, .UserAmountToWei, .NewEVMClientFromParams, .SliceTo32Bytes,
            .ConstructErc20DepositData,
            .PrepareErc20DepositInput (toUint8 dest) arr
              (env.ConstructErc20DepositData (HexToAddress f.Recipient) realAmount),
            .BlockNumber, .Transact (HexToAddress f.Bridge) input g.gasLimit]) ∧
    (∀ err, validateFlags f = some err → depositCmd env f = ⟨f, [], .error err⟩) ∧
    (validateFlags f = none →
      (∀ err, env.GlobalFlagValues = .error err →
        depositCmd env f =
          ⟨f, [.GlobalFlagValues], .error (.Errorf (str "could not get global flags: %v") err)⟩) ∧
      ∀ g, env.GlobalFlagValues = .ok g →
      (∀ err, env.UserAmountToWei f.Amount f.Decimals = .error err →
        depositCmd env f = ⟨f, [.GlobalFlagValues, .UserAmountToWei], .error err⟩) ∧
      ∀ realAmount, env.UserAmountToWei f.Amount f.Decimals = .ok realAmount →
      (∀ err, env.NewEVMClientFromParams g.url g.senderKeyPair g.gasPrice = .error err →
        depositCmd env f =
          ⟨f, [.GlobalFlagValues, .UserAmountToWei, .NewEVMClientFromParams], .error err⟩) ∧
      ∀ ethClient, env.NewEVMClientFromParams g.url g.senderKeyPair g.gasPrice = .ok ethClient →
      (resourceIdStage env.SliceTo32Bytes f.ResourceID = .panic →
        depositCmd env f =
          ⟨f, [.GlobalFlagValues, .UserAmountToWei, .NewEVMClientFromParams], .panic⟩) ∧
      (∀ rid err, resourceIdStage env.SliceTo32Bytes f.ResourceID = .error rid err →
        depositCmd env f = ⟨{ f with ResourceID := rid },
          [.GlobalFlagValues, .UserAmountToWei, .NewEVMClientFromParams], .error err⟩) ∧
      ∀ rid arr, resourceIdStage env.SliceTo32Bytes f.ResourceID = .ok rid arr →
      (∀ err, Atoi f.DestinationID = .error err →
        depositCmd env f = ⟨{ f with ResourceID := rid },
          [.GlobalFlagValues, .UserAmountToWei, .NewEVMClientFromParams, .SliceTo32Bytes],
          .error err⟩) ∧
      ∀ dest, Atoi f.DestinationID = .ok dest →
      (∀ err, env.PrepareErc20DepositInput (toUint8 dest) arr
          (env.ConstructErc20DepositData (HexToAddress f.Recipient) realAmount) = .error err →
        depositCmd env f = ⟨{ f with ResourceID := rid },
          [.GlobalFlagValues, .UserAmountToWei, .NewEVMClientFromParams, .SliceTo32Bytes,
            .ConstructErc20DepositData,
            .PrepareErc20DepositInput (toUint8 dest) arr
              (env.ConstructErc20DepositData (HexToAddress f.Recipient) realAmount)],
          .error err⟩) ∧
      ∀ input, env.PrepareErc20DepositInput (toUint8 dest) arr
          (env.ConstructErc20DepositData (HexToAddress f.Recipient) realAmount) = .ok input →
      (∀ err, env.BlockNumber ethClient = .error err →
        depositCmd env f = ⟨{ f with ResourceID := rid },
          [.GlobalFlagValues, .UserAmountToWei, .NewEVMClientFromParams, .SliceTo32Bytes,
            .ConstructErc20DepositData,
            .PrepareErc20DepositInput (toUint8 dest) arr
              (env.ConstructErc20DepositData (HexToAddress f.Recipient) realAmount),
            .BlockNumber],
          .error err⟩) ∧
      ∀ blockNum, env.BlockNumber ethClient = .ok blockNum →
      (∀ err, env.Transact ethClient (HexToAddress f.Bridge) input g.gasLimit = .error err →
        depositCmd env f = ⟨{ f with ResourceID := rid },
          [.GlobalFlagValues, .UserAmountToWei, .NewEVMClientFromParams, .SliceTo32Bytes,
            .ConstructErc20DepositData,
            .PrepareErc20DepositInput (toUint8 dest) arr
              (env.ConstructErc20DepositData (HexToAddress f.Recipient) realAmount),
            .BlockNumber, .Transact (HexToAddress f.Bridge) input g.gasLimit],
          .error err⟩) ∧
      ∀ txHash, env.Transact ethClient (HexToAddress f.Bridge) input g.gasLimit = .ok txHash →
        depositCmd env f = ⟨{ f with ResourceID := rid },
          [.GlobalFlagValues, .UserAmountToWei, .NewEVMClientFromParams, .SliceTo32Bytes,
            .ConstructErc20DepositData,
            .PrepareErc20DepositInput (toUint8 dest) arr
              (env.ConstructErc20DepositData (HexToAddress f.Recipient) realAmount),
            .BlockNumber, .Transact (HexToAddress f.Bridge) input g.gasLimit],
          .nil⟩) := by
  have hc := DepositCmd_cases env f
  unfold depositCmd
  cases hv : validateFlags f with
  | some err => simp
  | none =>
    dsimp only
    rcases hc with ⟨err, h1, hr⟩ | ⟨g, h1, ⟨err, h2, hr⟩ | ⟨realAmount, h2, ⟨err, h3, hr⟩ |
      ⟨ethClient, h3, ⟨h4, hr⟩ | ⟨rid, err, h4, hr⟩ | ⟨rid, arr, h4, ⟨err, h5, hr⟩ |
      ⟨dest, h5, ⟨err, h6, hr⟩ | ⟨input, h6, ⟨err, h7, hr⟩ | ⟨blockNum, h7, ⟨err, h8, hr⟩ |
      ⟨txHash, h8, hr⟩⟩⟩⟩⟩⟩⟩⟩
    all_goals (rw [hr]; simp [*, Event.isTransact])
    all_goals exact ⟨rid, arr, ⟨rfl, rfl⟩, input, h6, rfl, rfl, rfl⟩

/-- Scenario D: the recipient `notanaddress` stops the command before `DepositCmd`
runs; no call is made. -/
theorem depositCmd_fail_fast_witness :
    validateFlags { demoFlags with Recipient := str "notanaddress" } =
      some (.text (str "invalid recipient address notanaddress")) ∧
    depositCmd demoEnv { demoFlags with Recipient := str "notanaddress" } =
      ⟨{ demoFlags with Recipient := str "notanaddress" }, [],
        .error (.text (str "invalid recipient address notanaddress"))⟩ :=
  ⟨by decide,
    (depositCmd_fail_fast demoEnv { demoFlags with Recipient := str "notanaddress" }).2.2.1
      (.text (str "invalid recipient address notanaddress")) (by decide)⟩

/-! ## The destination id -/

/-- C1, the code at the failing inputs: with destination id `256` (and likewise `-1`)
and every collaborator succeeding, `DepositCmd` returns `nil`;
`PrepareErc20DepositInput` is called with the wrapped domain id `0` (`255`),
and `BlockNumber` and `Transact` are both invoked. -/
theorem DepositCmd_wraps_destination_id :
    Atoi (str "256") = .ok 256 ∧
    (DepositCmd demoEnv { demoFlags with DestinationID := str "256" }).ret = .nil ∧
    (DepositCmd demoEnv { demoFlags with DestinationID := str "256" }).trace.filterMap
      Event.domainId? = [0] ∧
    Event.BlockNumber ∈
      (DepositCmd demoEnv { demoFlags with DestinationID := str "256" }).trace ∧
    (DepositCmd demoEnv { demoFlags with DestinationID := str "256" }).trace.countP
      Event.isTransact = 1 ∧
    Atoi (str "-1") = .ok (-1) ∧
    (DepositCmd demoEnv { demoFlags with DestinationID := str "-1" }).ret = .nil ∧
    (DepositCmd demoEnv { demoFlags with DestinationID := str "-1" }).trace.filterMap
      Event.domainId? = [255] ∧
    (DepositCmd demoEnv { demoFlags with DestinationID := str "-1" }).trace.countP
      Event.isTransact = 1 := by
  decide

/-! ## The resource id -/

/-- C4, the code at the failing input: a resource id of one character makes
`ResourceID[0:2]` panic, so the stage returns no error at all. -/
theorem resourceIdStage_single_character_panics :
    resourceIdStage demoEnv.SliceTo32Bytes (str "a") = .panic ∧
    DepositCmd demoEnv { demoFlags with ResourceID := str "a" } =
      ⟨{ demoFlags with ResourceID := str "a" },
        [.GlobalFlagValues, .UserAmountToWei, .NewEVMClientFromParams], .panic⟩ := by
  decide

/-- Apart from the panic on fewer than two characters, the stage does reject what C4
names: an odd number of characters or a non-hex character after the optional
`0x` gives a returned error. -/
theorem resourceIdStage_malformed (slice : Bytes → Bytes) (r : Bytes) (h2 : 2 ≤ r.length)
    (hbad : (strip0x r).length % 2 = 1 ∨ ∃ c ∈ strip0x r, isHexCharacter c = false) :
    ∃ err, resourceIdStage slice r = .error (strip0x r) err := by
  rw [resourceIdStage_eq slice r h2]
  have hne : (DecodeString (strip0x r)).2 ≠ none := by
    intro h
    have := (DecodeString_ok_iff _).1 h
    rcases hbad with hodd | ⟨c, hc, hcx⟩
    · omega
    · rw [this.2 c hc] at hcx
      exact absurd hcx (by simp)
  cases hd : DecodeString (strip0x r) with
  | mk b e =>
    cases e with
    | none => rw [hd] at hne; exact absurd rfl hne
    | some err => exact ⟨err, rfl⟩

/-- C5, the code at the failing input: the empty resource id makes `ResourceID[0:2]`
panic, while `0x` followed by the empty string gives 32 zero bytes. -/
theorem resourceIdStage_empty_differs_from_0x :
    resourceIdStage (SliceTo32Bytes .right) [] = .panic ∧
    resourceIdStage (SliceTo32Bytes .right) (str "0x" ++ []) = .ok [] (List.replicate 32 0) ∧
    resourceIdStage (SliceTo32Bytes .left) [] = .panic ∧
    resourceIdStage (SliceTo32Bytes .left) (str "0x" ++ []) = .ok [] (List.replicate 32 0) := by
  decide

theorem SliceTo32Bytes_short (side : PadSide) (b : Bytes) (h : b.length ≤ 32) :
    SliceTo32Bytes side b =
      match side with
      | .right => b ++ List.replicate (32 - b.length) 0
      | .left => List.replicate (32 - b.length) 0 ++ b := by
  cases side with
  | right =>
    simp only [SliceTo32Bytes]
    rw [List.take_append_eq_append_take, List.take_of_length_le h, List.take_replicate]
    congr 2
    omega
  | left =>
    simp only [SliceTo32Bytes]
    rw [List.drop_append_eq_append_drop, List.drop_replicate]
    simp only [List.length_replicate]
    rw [show b.length - 32 = 0 by omega, List.drop_zero]

/-- Apart from the empty string, the stage does what C5 says: for a non-empty even
run `h` of at most 64 hex characters, `h` and `0x` followed by `h` give the
same result, 32 bytes made of the decoded bytes and zero padding on the one
side. -/
theorem resourceIdStage_same_with_0x (side : PadSide) (h : Bytes) (hne : h ≠ [])
    (heven : h.length % 2 = 0) (hhex : ∀ c ∈ h, isHexCharacter c = true)
    (hlen : h.length ≤ 64) :
    resourceIdStage (SliceTo32Bytes side) h =
      .ok h (SliceTo32Bytes side (DecodeString h).1) ∧
    resourceIdStage (SliceTo32Bytes side) (str "0x" ++ h) =
      .ok h (SliceTo32Bytes side (DecodeString h).1) ∧
    (SliceTo32Bytes side (DecodeString h).1).length = 32 ∧
    SliceTo32Bytes side (DecodeString h).1 =
      (match side with
      | .right => (DecodeString h).1 ++ List.replicate (32 - h.length / 2) 0
      | .left => List.replicate (32 - h.length / 2) 0 ++ (DecodeString h).1) := by
  have hok : (DecodeString h).2 = none := (DecodeString_ok_iff h).2 ⟨heven, hhex⟩
  have hl := DecodeString_length h hok
  have hl2 : (DecodeString h).1.length = h.length / 2 := by omega
  have hshort := SliceTo32Bytes_short side (DecodeString h).1 (by omega)
  have hs1 : strip0x h = h := by
    unfold strip0x
    rw [if_neg]
    rw [str_0x]
    match h, hhex with
    | [], _ => simp
    | [_], _ => simp
    | c0 :: c1 :: t, hhex =>
      have h1 := hhex c1 (by simp)
      simp only [isHexCharacter, Bool.or_eq_true, Bool.and_eq_true, decide_eq_true_eq] at h1
      simp only [List.take_succ_cons, List.take_zero, List.cons.injEq, and_true, not_and]
      omega
  have hs2 : strip0x (str "0x" ++ h) = h := by
    unfold strip0x
    rw [str_0x]
    simp
  have hlen1 : 2 ≤ h.length := by
    cases h with
    | nil => exact absurd rfl hne
    | cons a t =>
      cases t with
      | nil => simp at heven
      | cons _ _ => simp
  have hlen2 : 2 ≤ (str "0x" ++ h).length := by rw [str_0x]; simp
  have hd : DecodeString h = ((DecodeString h).1, none) := by
    rw [← hok]
  refine ⟨?_, ?_, ?_, ?_⟩
  · rw [resourceIdStage_eq _ _ hlen1, hs1, hd]
  · rw [resourceIdStage_eq _ _ hlen2, hs2, hd]
  · rw [hshort]
    cases side <;> simp only [List.length_append, List.length_replicate] <;> omega
  · rw [hshort, hl2]

/-- Scenario B: `0x01` and `01` both give 32 bytes whose only non-zero byte is `0x01`. -/
theorem resourceIdStage_same_with_0x_witness :
    resourceIdStage (SliceTo32Bytes .right) (str "01") = .ok (str "01") (1 :: List.replicate 31 0) ∧
    resourceIdStage (SliceTo32Bytes .right) (str "0x" ++ str "01") =
      .ok (str "01") (1 :: List.replicate 31 0) :=
  ⟨(resourceIdStage_same_with_0x .right (str "01") (by decide) (by decide) (by decide)
      (by decide)).1,
    (resourceIdStage_same_with_0x .right (str "01") (by decide) (by decide) (by decide)
      (by decide)).2.1⟩

/-- C3 as stated fails: a resource id of 33 bytes is not refused. With every
collaborator succeeding `DepositCmd` returns `nil`, and
`PrepareErc20DepositInput` has received a 32-byte resource id. -/
theorem long_resource_id_not_rejected :
    (DecodeString (strip0x longResourceId)).1.length = 33 ∧
    (DecodeString (strip0x longResourceId)).2 = none ∧
    (DepositCmd demoEnv { demoFlags with ResourceID := longResourceId }).ret = .nil ∧
    (DepositCmd demoEnv { demoFlags with ResourceID := longResourceId }).trace.filterMap
      Event.resourceId? = [List.replicate 32 1] := by
  decide

/-- C3 as amended: when `ResourceID` (after the optional `0x`) decodes to more than
32 bytes, the resource-id stage returns no error: the decoded bytes go to
`calls.SliceTo32Bytes`, which has a value and no error as its result, and once
the destination id parses that value is the resource id
`PrepareErc20DepositInput` is called with. -/
theorem long_resource_id_passed_on (env : Env) (f : Flags) (g : GlobalFlags)
    (realAmount ethClient : Nat) (dest : Int) (b : Bytes)
    (h1 : env.GlobalFlagValues = .ok g)
    (h2 : env.UserAmountToWei f.Amount f.Decimals = .ok realAmount)
    (h3 : env.NewEVMClientFromParams g.url g.senderKeyPair g.gasPrice = .ok ethClient)
    (hb : DecodeString (strip0x f.ResourceID) = (b, none)) (hlen : 32 < b.length)
    (h5 : Atoi f.DestinationID = .ok dest) :
    resourceIdStage env.SliceTo32Bytes f.ResourceID =
      .ok (strip0x f.ResourceID) (env.SliceTo32Bytes b) ∧
    Event.PrepareErc20DepositInput (toUint8 dest) (env.SliceTo32Bytes b)
        (env.ConstructErc20DepositData (HexToAddress f.Recipient) realAmount) ∈
      (DepositCmd env f).trace := by
  have hlen2 : 2 ≤ f.ResourceID.length := by
    by_contra hlt
    have hs : strip0x f.ResourceID = f.ResourceID := by
      unfold strip0x
      rw [if_neg]
      intro h
      have := congrArg List.length h
      rw [str_0x, List.length_take] at this
      simp only [List.length_cons, List.length_nil] at this
      omega
    have := DecodeString_length_le (strip0x f.ResourceID)
    rw [hb, hs] at this
    simp only at this
    omega
  have h4 : resourceIdStage env.SliceTo32Bytes f.ResourceID =
      .ok (strip0x f.ResourceID) (env.SliceTo32Bytes b) := by
    rw [resourceIdStage_eq _ _ hlen2, hb]
  refine ⟨h4, ?_⟩
  rcases DepositCmd_cases env f with ⟨err, e1, hr⟩ | ⟨g', e1, ⟨err, e2, hr⟩ |
    ⟨realAmount', e2, ⟨err, e3, hr⟩ | ⟨ethClient', e3, ⟨e4, hr⟩ | ⟨rid, err, e4, hr⟩ |
    ⟨rid, arr, e4, ⟨err, e5, hr⟩ | ⟨dest', e5, ⟨err, e6, hr⟩ | ⟨input, e6, ⟨err, e7, hr⟩ |
    ⟨blockNum, e7, ⟨err, e8, hr⟩ | ⟨txHash, e8, hr⟩⟩⟩⟩⟩⟩⟩⟩
  all_goals simp_all

/-- The 33-byte resource id in the worked environment. -/
theorem long_resource_id_passed_on_witness :
    32 < (DecodeString (strip0x longResourceId)).1.length ∧
    Event.PrepareErc20DepositInput 1 (demoEnv.SliceTo32Bytes (List.replicate 33 1))
        (demoEnv.ConstructErc20DepositData (HexToAddress demoFlags.Recipient)
          1500000000000000000) ∈
      (DepositCmd demoEnv { demoFlags with ResourceID := longResourceId }).trace :=
  ⟨by decide,
    (long_resource_id_passed_on demoEnv { demoFlags with ResourceID := longResourceId }
      ⟨str "http://localhost:8545", 6721975, 20000000000, 1⟩ 1500000000000000000 1 1
      (List.replicate 33 1) (by decide) (by decide) (by decide) (by decide) (by decide)
      (by decide)).2⟩

/-! ## Validation and network access -/

/-- C9 as stated fails: the malformed resource id `zz` is refused only after the RPC
client has been constructed. -/
theorem malformed_resource_id_after_client :
    (∃ c ∈ strip0x (str "zz"), isHexCharacter c = false) ∧
    DepositCmd demoEnv { demoFlags with ResourceID := str "zz" } =
      ⟨{ demoFlags with ResourceID := str "zz" },
        [.GlobalFlagValues, .UserAmountToWei, .NewEVMClientFromParams],
        .error (.InvalidByteError 122)⟩ ∧
    Event.isNetwork .NewEVMClientFromParams = true :=
  ⟨⟨122, by decide, by decide⟩, by decide, by decide⟩

theorem splitAtPoint_none (s : Bytes) (h : (splitAtPoint s).2 = none) :
    (splitAtPoint s).1 = s := by
  induction s with
  | nil => rfl
  | cons c cs ih =>
    unfold splitAtPoint at h ⊢
    by_cases hc : c = 46
    · rw [if_pos hc] at h
      exact absurd h (by simp)
    · rw [if_neg hc] at h ⊢
      simp only at h ⊢
      rw [ih h]

theorem splitAtPoint_some (s fp : Bytes) (h : (splitAtPoint s).2 = some fp) :
    s = (splitAtPoint s).1 ++ 46 :: fp := by
  induction s with
  | nil => simp [splitAtPoint] at h
  | cons c cs ih =>
    unfold splitAtPoint at h ⊢
    by_cases hc : c = 46
    · rw [if_pos hc] at h ⊢
      simp only [Option.some.injEq] at h
      simp [hc, h]
    · rw [if_neg hc] at h ⊢
      simp only at h ⊢
      rw [List.cons_append, ← ih h]

/-- The amount conversion of the specification accepts decimal strings only. -/
theorem UserAmountToWei_ok_decimal (s : Bytes) (decimals : Int) (v : Nat)
    (h : UserAmountToWei s decimals = .ok v) : ∃ ip fp, IsDecimal s ip fp := by
  unfold UserAmountToWei at h
  simp only at h
  split at h
  · exact absurd h (by simp)
  · rename_i hcond
    simp only [Bool.or_eq_true, Bool.not_eq_true', not_or, Bool.not_eq_true,
      Bool.not_eq_false, beq_eq_false_iff_ne, ne_eq] at hcond
    obtain ⟨⟨⟨hemp, hip⟩, hfpne⟩, hfp⟩ := hcond
    have hne : (splitAtPoint s).1 ≠ [] := by
      intro h0
      rw [h0] at hemp
      exact absurd hemp (by simp)
    refine ⟨(splitAtPoint s).1, (splitAtPoint s).2.getD [], hne, List.all_eq_true.1 hip,
      List.all_eq_true.1 hfp, ?_⟩
    cases hsp : (splitAtPoint s).2 with
    | none => exact Or.inl ⟨rfl, (splitAtPoint_none s hsp).symm⟩
    | some fp =>
      refine Or.inr ⟨?_, splitAtPoint_some s fp hsp⟩
      intro h0
      simp only [Option.getD_some] at h0
      rw [hsp, h0] at hfpne
      exact hfpne rfl

theorem not_IsDecimal_nil (ip fp : Bytes) : ¬ IsDecimal [] ip fp := by
  rintro ⟨hne, _, _, ⟨_, h⟩ | ⟨_, h⟩⟩
  · exact hne h.symm
  · exact absurd h (by simp)

theorem parseUintLoop_digits (ds : Bytes) (n v : Nat) (h : parseUintLoop ds n = .ok v) :
    ∀ c ∈ ds, isDigit c = true := by
  induction ds generalizing n with
  | nil => simp
  | cons c cs ih =>
    unfold parseUintLoop at h
    split at h
    · exact absurd h (by simp)
    · rename_i hc
      split at h
      · exact absurd h (by simp)
      · split at h
        · exact absurd h (by simp)
        · intro x hx
          rcases List.mem_cons.1 hx with rfl | hx
          · simpa using hc
          · exact ih _ h x hx

/-- The parser `strconv.Atoi` accepts decimal integers only. -/
theorem Atoi_ok_integer (s : Bytes) (n : Int) (h : Atoi s = .ok n) : IsDecimalInteger s := by
  unfold Atoi at h
  by_cases h1 : s.isEmpty = true
  · rw [if_pos h1] at h
    exact absurd h (by simp)
  · rw [if_neg h1] at h
    dsimp only at h
    by_cases h2 : (if (s.head? == some 43 || s.head? == some 45) = true then s.drop 1
        else s).isEmpty = true
    · rw [if_pos h2] at h
      exact absurd h (by simp)
    · rw [if_neg h2] at h
      cases hp : parseUintLoop (if (s.head? == some 43 || s.head? == some 45) = true
          then s.drop 1 else s) 0 with
      | error kind =>
        rw [hp] at h
        exact absurd h (by simp)
      | ok un =>
        have hdig := parseUintLoop_digits _ _ _ hp
        cases s with
        | nil => exact absurd rfl h1
        | cons c t =>
          by_cases hsign : (c = 43 ∨ c = 45)
          · have hcond : ((c :: t).head? == some 43 || (c :: t).head? == some 45) = true := by
              simp only [List.head?_cons, Bool.or_eq_true, beq_iff_eq, Option.some.injEq]
              exact hsign
            rw [if_pos hcond] at h2 hdig
            simp only [List.drop_succ_cons, List.drop_zero] at h2 hdig
            refine ⟨[c], t, rfl, ?_, ?_, hdig⟩
            · rcases hsign with rfl | rfl
              · right; right; decide
              · right; left; decide
            · intro h0
              rw [h0] at h2
              exact h2 rfl
          · have hcond : ¬ ((c :: t).head? == some 43 || (c :: t).head? == some 45) = true := by
              simp only [List.head?_cons, Bool.or_eq_true, beq_iff_eq, Option.some.injEq]
              exact hsign
            rw [if_neg hcond] at hdig
            exact ⟨[], c :: t, rfl, Or.inl rfl, by simp, hdig⟩

theorem not_IsDecimalInteger_nil : ¬ IsDecimalInteger [] := by
  rintro ⟨sign, ds, h, _, hne, _⟩
  have := congrArg List.length h
  simp only [List.length_nil, List.length_append] at this
  exact hne (List.length_eq_zero.1 (by omega))

/-- C9 as amended: when the amount is absent (empty) or malformed (not a non-negative
decimal string), the amount conversion being the one of the specification,
`DepositCmd` returns an error and has made no call that reaches the network,
the construction of the RPC client included. When the resource id has at
least two characters and is malformed (an odd number of characters or a
non-hex character after the optional `0x`), or has at least two characters
while the destination id is absent (empty) or malformed (not a decimal
integer), `DepositCmd` returns an error and has called neither `BlockNumber`
nor `Transact`; the RPC client has been constructed by then whenever the
global flags and the amount conversion succeeded. -/
theorem malformed_input_rejected (env : Env) (f : Flags) :
    (env.UserAmountToWei = UserAmountToWei →
      (f.Amount = [] ∨ ¬ ∃ ip fp, IsDecimal f.Amount ip fp) →
      (DepositCmd env f).ret.isError = true ∧
      ∀ e ∈ (DepositCmd env f).trace, e.isNetwork = false) ∧
    (2 ≤ f.ResourceID.length →
      ((strip0x f.ResourceID).length % 2 = 1 ∨
        (∃ c ∈ strip0x f.ResourceID, isHexCharacter c = false) ∨
        f.DestinationID = [] ∨ ¬ IsDecimalInteger f.DestinationID) →
      (DepositCmd env f).ret.isError = true ∧
      (∀ e ∈ (DepositCmd env f).trace, e ≠ .BlockNumber ∧ e.isTransact = false) ∧
      (∀ g realAmount, env.GlobalFlagValues = .ok g →
        env.UserAmountToWei f.Amount f.Decimals = .ok realAmount →
        Event.NewEVMClientFromParams ∈ (DepositCmd env f).trace)) := by
  refine ⟨?_, ?_⟩
  · intro henv hbad
    have hno : ¬ ∃ ip fp, IsDecimal f.Amount ip fp := by
      rcases hbad with h | h
      · rintro ⟨ip, fp, hd⟩
        rw [h] at hd
        exact not_IsDecimal_nil ip fp hd
      · exact h
    rcases DepositCmd_cases env f with ⟨err, e1, hr⟩ | ⟨g', e1, ⟨err, e2, hr⟩ |
      ⟨realAmount', e2, hr⟩⟩
    · rw [hr]; simp [Ret.isError, Event.isNetwork]
    · rw [hr]; simp [Ret.isError, Event.isNetwork]
    · rw [henv] at e2
      exact absurd (UserAmountToWei_ok_decimal _ _ _ e2) hno
  · intro hlen hbad
    have hstage : (∃ err, resourceIdStage env.SliceTo32Bytes f.ResourceID =
          .error (strip0x f.ResourceID) err) ∨ ∀ n, Atoi f.DestinationID ≠ .ok n := by
      rcases hbad with h | h | h | h
      · exact Or.inl (resourceIdStage_malformed _ _ hlen (Or.inl h))
      · exact Or.inl (resourceIdStage_malformed _ _ hlen (Or.inr h))
      · refine Or.inr (fun n hn => ?_)
        have := Atoi_ok_integer _ _ hn
        rw [h] at this
        exact not_IsDecimalInteger_nil this
      · exact Or.inr (fun n hn => h (Atoi_ok_integer _ _ hn))
    have hnp : resourceIdStage env.SliceTo32Bytes f.ResourceID ≠ .panic := by
      rw [resourceIdStage_eq _ _ hlen]
      split <;> simp
    rcases DepositCmd_cases env f with ⟨err, e1, hr⟩ | ⟨g', e1, ⟨err, e2, hr⟩ |
      ⟨realAmount', e2, ⟨err, e3, hr⟩ | ⟨ethClient', e3, ⟨e4, hr⟩ | ⟨rid, err, e4, hr⟩ |
      ⟨rid, arr, e4, ⟨err, e5, hr⟩ | ⟨dest', e5, hr⟩⟩⟩⟩⟩
    · rw [hr]; simp [Ret.isError, Event.isTransact, e1]
    · rw [hr]; simp [Ret.isError, Event.isTransact, e2]
    · rw [hr]; simp [Ret.isError, Event.isTransact]
    · exact absurd e4 hnp
    · rw [hr]; simp [Ret.isError, Event.isTransact]
    · rw [hr]; simp [Ret.isError, Event.isTransact]
    · rcases hstage with ⟨err, h⟩ | h
      · rw [h] at e4
        exact absurd e4 (by simp)
      · exact absurd e5 (h dest')

/-- An empty amount is refused before any call reaches the network; an empty
destination id is refused before `BlockNumber` and `Transact`, the client
having been constructed. -/
theorem malformed_input_rejected_witness :
    ((DepositCmd demoEnv { demoFlags with Amount := [] }).ret.isError = true ∧
      ∀ e ∈ (DepositCmd demoEnv { demoFlags with Amount := [] }).trace,
        e.isNetwork = false) ∧
    ((DepositCmd demoEnv { demoFlags with DestinationID := [] }).ret.isError = true ∧
      (∀ e ∈ (DepositCmd demoEnv { demoFlags with DestinationID := [] }).trace,
        e ≠ .BlockNumber ∧ e.isTransact = false) ∧
      Event.NewEVMClientFromParams ∈
        (DepositCmd demoEnv { demoFlags with DestinationID := [] }).trace) :=
  ⟨(malformed_input_rejected demoEnv { demoFlags with Amount := [] }).1 rfl (Or.inl rfl),
    ((malformed_input_rejected demoEnv { demoFlags with DestinationID := [] }).2
      (by decide) (Or.inr (Or.inr (Or.inl rfl)))).1,
    ((malformed_input_rejected demoEnv { demoFlags with DestinationID := [] }).2
      (by decide) (Or.inr (Or.inr (Or.inl rfl)))).2.1,
    ((malformed_input_rejected demoEnv { demoFlags with DestinationID := [] }).2
      (by decide) (Or.inr (Or.inr (Or.inl rfl)))).2.2
      ⟨str "http://localhost:8545", 6721975, 20000000000, 1⟩ 1500000000000000000
      (by decide) (by decide)⟩

/-! ## The flag variables after the run -/

/-- C10 as stated fails: after `DepositCmd` the variable `ResourceID` holds `01` where
the request had `0x01`. -/
theorem DepositCmd_rewrites_ResourceID :
    demoFlags.ResourceID = str "0x01" ∧
    (DepositCmd demoEnv demoFlags).flags.ResourceID = str "01" ∧
    (DepositCmd demoEnv demoFlags).flags = { demoFlags with ResourceID := str "01" } := by
  decide

theorem resourceIdStage_rid (slice : Bytes → Bytes) (r rid : Bytes) :
    ((∃ err, resourceIdStage slice r = .error rid err) ∨
      ∃ arr, resourceIdStage slice r = .ok rid arr) →
    2 ≤ r.length ∧ rid = strip0x r := by
  intro h
  by_cases h2 : 2 ≤ r.length
  · refine ⟨h2, ?_⟩
    rw [resourceIdStage_eq _ _ h2] at h
    rcases h with ⟨err, h⟩ | ⟨arr, h⟩
    · split at h
      · injection h with h _; exact h.symm
      · exact absurd h (by simp)
    · split at h
      · exact absurd h (by simp)
      · injection h with h _; exact h.symm
  · rw [resourceIdStage_panic _ _ (by omega)] at h
    rcases h with ⟨err, h⟩ | ⟨arr, h⟩ <;> exact absurd h (by simp)

/-- C10 as amended: `DepositCmd` leaves `Recipient`, `Bridge`, `Amount`,
`DestinationID` and `Decimals` as they were. `ResourceID` is either as it was
or has lost a leading `0x`: it is unchanged when it does not start with `0x`,
and it has lost the `0x` when it starts with it and the global flags, the
amount conversion and the client construction succeed. -/
theorem DepositCmd_flags (env : Env) (f : Flags) :
    (DepositCmd env f).flags.Recipient = f.Recipient ∧
    (DepositCmd env f).flags.Bridge = f.Bridge ∧
    (DepositCmd env f).flags.Amount = f.Amount ∧
    (DepositCmd env f).flags.DestinationID = f.DestinationID ∧
    (DepositCmd env f).flags.Decimals = f.Decimals ∧
    ((DepositCmd env f).flags.ResourceID = f.ResourceID ∨
      f.ResourceID = str "0x" ++ (DepositCmd env f).flags.ResourceID) ∧
    (f.ResourceID.take 2 ≠ str "0x" → (DepositCmd env f).flags = f) ∧
    (∀ g realAmount ethClient, env.GlobalFlagValues = .ok g →
      env.UserAmountToWei f.Amount f.Decimals = .ok realAmount →
      env.NewEVMClientFromParams g.url g.senderKeyPair g.gasPrice = .ok ethClient →
      f.ResourceID.take 2 = str "0x" →
      (DepositCmd env f).flags.ResourceID = f.ResourceID.drop 2) := by
  have key : ∀ rid, 2 ≤ f.ResourceID.length ∧ rid = strip0x f.ResourceID →
      (rid = f.ResourceID ∨ f.ResourceID = str "0x" ++ rid) ∧
      (f.ResourceID.take 2 ≠ str "0x" → rid = f.ResourceID) ∧
      (f.ResourceID.take 2 = str "0x" → rid = f.ResourceID.drop 2) := by
    rintro rid ⟨_, rfl⟩
    unfold strip0x
    by_cases hp : f.ResourceID.take 2 = str "0x"
    · rw [if_pos hp]
      refine ⟨Or.inr ?_, fun h => absurd hp h, fun _ => rfl⟩
      rw [← hp, List.take_append_drop]
    · rw [if_neg hp]
      exact ⟨Or.inl rfl, fun _ => rfl, fun h => absurd h hp⟩
  have hpanic : resourceIdStage env.SliceTo32Bytes f.ResourceID = .panic →
      f.ResourceID.take 2 ≠ str "0x" := by
    intro hp h
    have h2 : 2 ≤ f.ResourceID.length := by
      have := congrArg List.length h
      rw [str_0x, List.length_take] at this
      simp only [List.length_cons, List.length_nil] at this
      omega
    rw [resourceIdStage_eq _ _ h2] at hp
    split at hp <;> exact absurd hp (by simp)
  rcases DepositCmd_cases env f with ⟨err, e1, hr⟩ | ⟨g', e1, ⟨err, e2, hr⟩ |
    ⟨realAmount', e2, ⟨err, e3, hr⟩ | ⟨ethClient', e3, ⟨e4, hr⟩ | ⟨rid, err, e4, hr⟩ |
    ⟨rid, arr, e4, ⟨err, e5, hr⟩ | ⟨dest', e5, ⟨err, e6, hr⟩ | ⟨input, e6, ⟨err, e7, hr⟩ |
    ⟨blockNum, e7, ⟨err, e8, hr⟩ | ⟨txHash, e8, hr⟩⟩⟩⟩⟩⟩⟩⟩
  · rw [hr]; simp [e1]
  · rw [hr]; simp [e1, e2]
  · rw [hr]
    refine ⟨rfl, rfl, rfl, rfl, rfl, Or.inl rfl, fun _ => rfl, ?_⟩
    intro g _ c hg _ hc _
    rw [e1] at hg
    injection hg with hg
    subst hg
    rw [e3] at hc
    exact absurd hc (by simp)
  · rw [hr]
    refine ⟨rfl, rfl, rfl, rfl, rfl, Or.inl rfl, fun _ => rfl, ?_⟩
    intro _ _ _ _ _ _ h
    exact absurd h (hpanic e4)
  all_goals
    obtain ⟨k1, k2, k3⟩ := key rid (resourceIdStage_rid _ _ _
      (by first | exact Or.inl ⟨_, e4⟩ | exact Or.inr ⟨_, e4⟩))
    rw [hr]
    refine ⟨rfl, rfl, rfl, rfl, rfl, k1, ?_, fun _ _ _ _ _ _ h => k3 h⟩
    intro h
    rw [k2 h]

/-- The request of the worked example: its `ResourceID` starts with `0x` and has lost
it after the run; the other five variables are as before. -/
theorem DepositCmd_flags_witness :
    demoFlags.ResourceID.take 2 = str "0x" ∧
    (DepositCmd demoEnv demoFlags).flags.ResourceID = demoFlags.ResourceID.drop 2 ∧
    (DepositCmd demoEnv demoFlags).flags.Recipient = demoFlags.Recipient :=
  ⟨by decide,
    (DepositCmd_flags demoEnv demoFlags).2.2.2.2.2.2.2
      ⟨str "http://localhost:8545", 6721975, 20000000000, 1⟩ 1500000000000000000 1
      (by decide) (by decide) (by decide) (by decide),
    (DepositCmd_flags demoEnv demoFlags).1⟩

end Erc20Deposit
